import Mathlib

/-!
Verification of the RecordTheseHands collector pipeline
(`server/collector/dump_4.py`, `check.py`, `verify_clips.py`, `video_2.py`)
against its natural-language specification.

Shallow embedding conventions:
* A JSON object field is a `JVal`: `absent` (key not in the dict), `null`
  (key present with value `null` / Python `None`), or `val a`.
  Python `d.get(k)` is `JVal.toOption`; `d.get(k, dflt)` keeps `null` as
  `None`, which is modelled field-by-field where it matters; `k in d` is
  `jPresent`.
* ISO-8601 timestamp strings are abstracted to the rational number of
  wall-clock seconds they denote (`_parse_iso_timestamp` is the identity
  of that abstraction); Python floats are modelled as `ℚ`.
* Python string truthiness (`if not s:` treats `""` like `None`) is
  `strTruthy`.
-/

/-- Status of a JSON field: absent key, `null` value, or a proper value. -/
inductive JVal (α : Type) where
  | absent : JVal α
  | null : JVal α
  | val : α → JVal α
deriving DecidableEq, Repr

/-- Python `d.get(k)`: both an absent key and a `null` value read as `None`. -/
def JVal.toOption {α : Type} : JVal α → Option α
  | .absent => none
  | .null => none
  | .val a => some a

/-- Python `k in d`: a `null` value still counts as a present key. -/
def jPresent {α : Type} : JVal α → Bool
  | .absent => false
  | _ => true

/-- Truthiness of `summary.get('valid', False)`: an absent key yields the
default `False`, a `null` value yields `None` (falsy), otherwise the
stored boolean itself. -/
def jTruthyBool : JVal Bool → Bool
  | .val b => b
  | _ => false

/-- Python truthiness filter for an optional string: `None` and `""` are
falsy (`if not s: ...`). -/
def strTruthy : Option String → Option String
  | some s => if s = "" then none else some s
  | none => none

/-- One entry of the `summary` map written per clip into the metadata dump
(`dump_4.py`, `simple_clip`), as the downstream classifiers read it back
from JSON. -/
structure Summary where
  userId : JVal String
  sessionIndex : JVal Int
  clipIndex : JVal Int
  filename : JVal String
  promptText : JVal String
  valid : JVal Bool
  tutorial : JVal Bool
  start_s : JVal ℚ
  end_s : JVal ℚ
deriving DecidableEq, Repr

/-- The five buckets of `verify_clips.verify_clip_quality`. -/
inductive Bucket where
  | high_confidence
  | medium_confidence
  | low_confidence
  | invalid
  | incomplete
deriving DecidableEq, Repr

/-- Per-record categorization of `verify_clips.verify_clip_quality`
(lines 32-84): `prompt = summary.get('promptText', 'N/A')`,
`valid = summary.get('valid', False)`, bounds via `get`, then the
`if not valid / elif missing / elif duration ...` cascade. -/
def classifyClip (s : Summary) : Bucket :=
  let prompt : Option String :=
    match s.promptText with
    | .absent => some "N/A"
    | .null => none
    | .val p => some p
  let valid := jTruthyBool s.valid
  let start? := s.start_s.toOption
  let end? := s.end_s.toOption
  let duration : Option ℚ :=
    match start?, end? with
    | some a, some b => some (b - a)
    | _, _ => none
  if valid = false then .invalid
  else if start? = none ∨ end? = none ∨ prompt = some "N/A" then .incomplete
  else
    match duration with
    | some d =>
        if d < 1/2 then .low_confidence
        else if d > 20 then .medium_confidence
        else if d < 1 then .medium_confidence
        else .high_confidence
    | none => .low_confidence

/-- The three buckets of `check.analyze_clips`. -/
inductive CheckBucket where
  | valid
  | invalid
  | missing_data
deriving DecidableEq, Repr

/-- Per-record categorization of `check.analyze_clips` (lines 25-38):
key-membership tests for the timestamps and the prompt, then the
truthiness of `summary.get('valid', False)`. -/
def classifyCheck (s : Summary) : CheckBucket :=
  let has_timestamps := jPresent s.start_s && jPresent s.end_s
  let has_prompt := jPresent s.promptText
  let is_valid := jTruthyBool s.valid
  if has_timestamps = false ∨ has_prompt = false then .missing_data
  else if is_valid then .valid
  else .invalid

/-- A record identical to `s` except that its `valid` field holds `false`. -/
def setValidFalse (s : Summary) : Summary := { s with valid := .val false }

/-- The five accumulating lists of the `results` dict of
`verify_clips.verify_clip_quality`. -/
structure VerifyResults where
  high_confidence : List Summary
  medium_confidence : List Summary
  low_confidence : List Summary
  invalid : List Summary
  incomplete : List Summary
deriving DecidableEq, Repr

/-- The initially empty `results` dict. -/
def emptyResults : VerifyResults := ⟨[], [], [], [], []⟩

/-- One iteration of the clip loop of `verify_clip_quality`: append the
clip to the list its categorization selects. -/
def addClip (r : VerifyResults) (s : Summary) : VerifyResults :=
  match classifyClip s with
  | .high_confidence => { r with high_confidence := r.high_confidence ++ [s] }
  | .medium_confidence => { r with medium_confidence := r.medium_confidence ++ [s] }
  | .low_confidence => { r with low_confidence := r.low_confidence ++ [s] }
  | .invalid => { r with invalid := r.invalid ++ [s] }
  | .incomplete => { r with incomplete := r.incomplete ++ [s] }

/-- The full classification loop of `verify_clips.verify_clip_quality`. -/
def verify_clip_quality (clips : List Summary) : VerifyResults :=
  clips.foldl addClip emptyResults

/-- Projection of a `VerifyResults` at a bucket. -/
def VerifyResults.atBucket (r : VerifyResults) : Bucket → List Summary
  | .high_confidence => r.high_confidence
  | .medium_confidence => r.medium_confidence
  | .low_confidence => r.low_confidence
  | .invalid => r.invalid
  | .incomplete => r.incomplete

/-- The weighted score of `verify_clips.calculate_overall_confidence`
(line 173): `(high * 1.0 + medium * 0.7 + low * 0.3) / total * 100`,
with the float constants read as exact rationals. -/
def calculate_overall_confidence (r : VerifyResults) (total : ℕ) : ℚ :=
  (r.high_confidence.length * 1 + r.medium_confidence.length * (7/10)
    + r.low_confidence.length * (3/10)) / total * 100

/-!  The raw Firestore documents consumed by `dump_4.get_data`.  -/

/-- Timestamps are abstracted from their ISO-8601 string form to the
instant they denote, in wall-clock seconds (`_parse_iso_timestamp`
composed with the epoch offset); a field holds `none` when the key is
missing, `null`, or an empty (falsy) string. -/
structure PromptData where
  prompt : Option String
deriving DecidableEq, Repr

/-- The payload map of one `clipData-` document, restricted to the keys
`dump_4.py` reads. -/
structure ClipData where
  clipId : Option String
  filename : Option String
  promptData : Option PromptData
  valid : Option Bool
  videoStart : Option ℚ
  startButtonDownTimestamp : Option ℚ
  startButtonUpTimestamp : Option ℚ
  restartButtonDownTimestamp : Option ℚ
  swipeForwardTimestamp : Option ℚ
  swipeBackTimestamp : Option ℚ
deriving DecidableEq, Repr

/-- Python `if not data:` on the payload dict, modelled on the tracked
keys: the dict is falsy when every tracked key is missing. -/
def ClipData.isEmptyDict (d : ClipData) : Bool :=
  d.clipId.isNone && d.filename.isNone && d.promptData.isNone && d.valid.isNone
    && d.videoStart.isNone && d.startButtonDownTimestamp.isNone
    && d.startButtonUpTimestamp.isNone && d.restartButtonDownTimestamp.isNone
    && d.swipeForwardTimestamp.isNone && d.swipeBackTimestamp.isNone

/-- One Firestore document: its id and its resolved payload
(`doc_dict.get('data') or doc_dict` already applied). -/
structure RawDoc where
  id : String
  data : ClipData
deriving DecidableEq, Repr

/-- `dump_4.get_clip_bounds_in_video` (lines 165-192): fallback chains
for the clip start and end, all three differences taken against the
`videoStart` anchor; `(None, None)` as soon as the anchor or an entire
chain is unavailable. -/
def get_clip_bounds_in_video (d : ClipData) : Option ℚ × Option ℚ :=
  match d.videoStart with
  | none => (none, none)
  | some video_start =>
    let clip_start :=
      match d.startButtonDownTimestamp with
      | some t => some t
      | none => d.startButtonUpTimestamp
    match clip_start with
    | none => (none, none)
    | some cs =>
      let clip_end :=
        match d.restartButtonDownTimestamp with
        | some t => some t
        | none =>
          match d.swipeForwardTimestamp with
          | some t => some t
          | none => d.swipeBackTimestamp
      match clip_end with
      | none => (none, none)
      | some ce => (some (cs - video_start), some (ce - video_start))

/-- Decimal digit test, as `\d` in the two grammars. -/
def isDig (c : Char) : Bool := c.isDigit

/-- Numeric value of a three-digit group, e.g. `threeDig '0' '4' '2' = 42`. -/
def threeDig (a b c : Char) : Int :=
  ((a.toNat - 48) * 100 + (b.toNat - 48) * 10 + (c.toNat - 48) : ℕ)

/-- Part `-s(\d{3})-(\d{3})` of the clip-id pattern, applied to the
characters from the first dash on: a dash, an `s`, three digits, a dash,
three digits, then anything. -/
def sDigitsPattern : List Char → Option (Int × Int)
  | c1 :: c2 :: a :: b :: c :: c6 :: d :: e :: f :: _ =>
    if c1 = '-' && c2 = 's' && c6 = '-' && isDig a && isDig b && isDig c
        && isDig d && isDig e && isDig f then
      some (threeDig a b c, threeDig d e f)
    else none
  | _ => none

/-- `re.match(r"[^-]+-s(\d{3})-(\d{3})", clip_id)` of `dump_4.get_data`
(line 110).  `re.match` anchors at the start only, so trailing characters
after the second digit group are accepted and ignored; the dash-free
prefix can only be the maximal dash-free run, because shortening it
leaves a non-dash character where the literal dash is required. -/
def parseClipId (s : String) : Option (Int × Int) :=
  let cs := s.data
  let pre := cs.takeWhile (fun c => c ≠ '-')
  if pre.isEmpty then none
  else sDigitsPattern (cs.dropWhile (fun c => c ≠ '-'))

/-- Whole-string reading of the clip-id grammar
`<prefix>-s<3-digit-session>-<3-digit-clip-index>` (spec section 4.1):
a nonempty dash-free prefix, then exactly `-s` + three digits + `-` +
three digits and nothing after them. -/
def clipIdExactGrammar (s : String) : Bool :=
  let cs := s.data
  let pre := cs.takeWhile (fun c => c ≠ '-')
  !pre.isEmpty &&
    match cs.dropWhile (fun c => c ≠ '-') with
    | '-' :: 's' :: a :: b :: c :: '-' :: d :: e :: f :: rest =>
      isDig a && isDig b && isDig c && isDig d && isDig e && isDig f && rest.isEmpty
    | _ => false

/-- Boolean list prefix test (Python `str.startswith`). -/
def listIsStart : List Char → List Char → Bool
  | [], _ => true
  | _ :: _, [] => false
  | a :: as, b :: bs => a = b && listIsStart as bs

/-!
`re.match(r"^(tutorial-)?(.+[^-]+)-[^-]+-s(\d{3})-.+\.mp4$", filename)`
(`dump_4.get_data` line 123).  The backtracking search is modelled
explicitly: the engine consumes the optional `tutorial-` first (greedy
`?`), and among the candidate end positions for group 2 (`.+[^-]+`) the
largest one for which the remainder of the pattern matches wins, since
the outer `.+` is tried longest-first and a later group-2 end is reached
before any shorter candidate is exhausted.  After group 2 the literal
dash forces `[^-]+` to be exactly the next maximal dash-free run, and the
end anchor makes the final `.+` the unique residue before `.mp4` (Python
`$` also tolerates one trailing newline).
-/

/-- Tail `-.+\.mp4$` of the filename pattern, applied after the dash that
follows the session digits: at least one non-newline character, then the
literal `.mp4` at the end of the string. -/
def matchTail (tl : List Char) : Bool :=
  let core :=
    match tl.getLast? with
    | some '\n' => tl.dropLast
    | _ => tl
  let n := core.length
  decide (5 ≤ n) && decide (core.drop (n - 4) = ".mp4".data)
    && (core.take (n - 4)).all (fun c => c ≠ '\n')

/-- Part `-[^-]+-s(\d{3})` + tail of the filename pattern, matched against
the characters from position `j` on; yields the session index (group 3). -/
def matchRest (cs : List Char) (j : Nat) : Option Int :=
  match cs.drop j with
  | '-' :: rest =>
    let seg := rest.takeWhile (fun c => c ≠ '-')
    if seg.isEmpty then none
    else
      match rest.dropWhile (fun c => c ≠ '-') with
      | '-' :: 's' :: a :: b :: c :: '-' :: tl =>
        if isDig a && isDig b && isDig c && matchTail tl then
          some (threeDig a b c)
        else none
      | _ => none
  | _ => none

/-- Can `cs.take j` be produced by `.+[^-]+` (group 2)?  There must be a
split point `i ≥ 1` with the `.+` part free of newlines and the `[^-]+`
part nonempty and free of dashes. -/
def g2ok (cs : List Char) (j : Nat) : Bool :=
  (List.range j).any (fun i =>
    decide (1 ≤ i) && ((cs.take j).drop i).all (fun c => c ≠ '-')
      && (cs.take i).all (fun c => c ≠ '\n'))

/-- Search for the group-2 end position, largest candidate first. -/
def bodyScan (cs : List Char) : Nat → Option (String × Int)
  | 0 => none
  | j + 1 =>
    match (if g2ok cs (j + 1) then matchRest cs (j + 1) else none) with
    | some sess => some (⟨cs.take (j + 1)⟩, sess)
    | none => bodyScan cs j

/-- The filename pattern after the optional `tutorial-`, returning
(group 2 = userId, group 3 = session index). -/
def matchBody (cs : List Char) : Option (String × Int) :=
  bodyScan cs cs.length

/-- The whole filename regex: the greedy optional `tutorial-` is consumed
when present and the body matches; otherwise the body is retried on the
unconsumed string.  Returns (tutorial flag, userId, session index). -/
def parseFilename (s : String) : Option (Bool × String × Int) :=
  let cs := s.data
  match (if listIsStart "tutorial-".data cs then matchBody (cs.drop 9) else none) with
  | some (uid, sess) => some (true, uid, sess)
  | none =>
    match matchBody cs with
    | some (uid, sess) => some (false, uid, sess)
    | none => none

/-- The `simple_clip` summary `dump_4.get_data` builds for an accepted
document (lines 134-152): prompt and valid carried over (null when
missing, since the keys are always written), tutorial set only when the
filename had the prefix, and each bound written only when non-null. -/
def builtSummary (d : ClipData) (fn : String) (si ci : Int) (tut : Bool)
    (uid : String) : Summary :=
  { userId := .val uid,
    sessionIndex := .val si,
    clipIndex := .val ci,
    filename := .val fn,
    promptText :=
      match d.promptData with
      | some pd =>
        match pd.prompt with
        | some p => .val p
        | none => .null
      | none => .null,
    valid :=
      match d.valid with
      | some b => .val b
      | none => .null,
    tutorial := if tut then .val true else .absent,
    start_s :=
      match (get_clip_bounds_in_video d).1 with
      | some q => .val q
      | none => .absent,
    end_s :=
      match (get_clip_bounds_in_video d).2 with
      | some q => .val q
      | none => .absent }

/-- Processing of one `clipData-` document by the loop body of
`dump_4.get_data` (lines 93-153): the sequence of skip conditions
(empty payload, missing/unparsable clip id, missing/unparsable filename,
session-index cross-check) followed by the construction of the
`simple_clip` summary.  `None` models `continue`. -/
def processClipDoc (doc : RawDoc) : Option Summary :=
  if listIsStart "clipData-".data doc.id.data = false then none
  else if doc.data.isEmptyDict then none
  else
    match strTruthy doc.data.clipId with
    | none => none
    | some cid =>
      match parseClipId cid with
      | none => none
      | some (session_index, clip_index) =>
        match strTruthy doc.data.filename with
        | none => none
        | some fn =>
          match parseFilename fn with
          | none => none
          | some (tut, user_id, fsess) =>
            if session_index ≠ fsess then none
            else some (builtSummary doc.data fn session_index clip_index tut user_id)

/-- The clip list accumulated by `dump_4.get_data` over a batch of
documents: each document contributes its summary or is skipped, and the
loop continues either way. -/
def getDataClips (docs : List RawDoc) : List Summary :=
  docs.filterMap processClipDoc

/-!  `video_2.py`: prompt coverage and session gaps.  -/

/-- `prompt = summary.get('promptText')` followed by `if prompt:`
(truthiness), in `video_2.detect_missing_prompts`. -/
def promptOf (s : Summary) : Option String :=
  strTruthy s.promptText.toOption

/-- Membership of a prompt in the `attempted_prompts` set built by
`detect_missing_prompts`. -/
def isAttempted (clips : List Summary) (p : String) : Bool :=
  clips.any (fun s => decide (promptOf s = some p))

/-- Membership in `completed_prompts`: some clip carries the prompt with a
truthy `valid`. -/
def isCompleted (clips : List Summary) (p : String) : Bool :=
  clips.any (fun s => decide (promptOf s = some p) && jTruthyBool s.valid)

/-- Membership in `rejected_prompts`: some clip carries the prompt with a
falsy `valid`. -/
def isRejected (clips : List Summary) (p : String) : Bool :=
  clips.any (fun s => decide (promptOf s = some p) && !jTruthyBool s.valid)

/-- The four categories of the per-prompt report of
`detect_missing_prompts`. -/
inductive PromptCategory where
  | completed_first_try
  | completed_with_retries
  | never_accepted
  | unknown
deriving DecidableEq, Repr

/-- The category branch of `detect_missing_prompts` (lines 74-85). -/
def promptCategory (clips : List Summary) (p : String) : PromptCategory :=
  if isCompleted clips p && !isRejected clips p then .completed_first_try
  else if isCompleted clips p && isRejected clips p then .completed_with_retries
  else if isRejected clips p && !isCompleted clips p then .never_accepted
  else .unknown

/-- `missing_prompts = expected_prompts - attempted_prompts`: the
reference prompts reported as `completely_skipped`
(`create_missing_prompts_csv`, lines 218-226). -/
def completelySkipped (expected : List String) (clips : List Summary) : List String :=
  expected.filter (fun p => !isAttempted clips p)

/-- The `clipIndex` values grouped under one `sessionIndex` by
`video_2.analyze_session_gaps` (lines 154-167): clips whose session and
clip index are both non-null. -/
def observedIndices (clips : List Summary) (sess : Int) : List Int :=
  clips.filterMap (fun s =>
    match s.sessionIndex.toOption, s.clipIndex.toOption with
    | some si, some ci => if si = sess then some ci else none
    | _, _ => none)

/-- Python `min` over a nonempty list. -/
def listMin : List Int → Option Int
  | [] => none
  | x :: xs => some (xs.foldl min x)

/-- Python `max` over a nonempty list. -/
def listMax : List Int → Option Int
  | [] => none
  | x :: xs => some (xs.foldl max x)

/-- `list(range(lo, hi + 1))`. -/
def intRange (lo hi : Int) : List Int :=
  (List.range (hi + 1 - lo).toNat).map (fun k : ℕ => lo + (k : Int))

/-- `sorted(set(range(min(indices), max(indices) + 1)) - set(indices))`
of `analyze_session_gaps` (lines 179-180): the integers of the inclusive
observed range that were not observed, in ascending order. -/
def sessionGaps (indices : List Int) : List Int :=
  match listMin indices, listMax indices with
  | some lo, some hi => (intRange lo hi).filter (fun i => decide (i ∉ indices))
  | _, _ => []

/-- The gap report `analyze_session_gaps` produces for one session of a
batch. -/
def gapsForSession (clips : List Summary) (sess : Int) : List Int :=
  sessionGaps (observedIndices clips sess)

/-!  Concrete inputs used by counterexamples and witnesses.  -/

/-- A fully populated well-formed summary (2-second clip). -/
def sGood : Summary :=
  { userId := .val "alice", sessionIndex := .val 0, clipIndex := .val 0,
    filename := .val "alice-phone-s000-video.mp4", promptText := .val "wave",
    valid := .val true, tutorial := .absent, start_s := .val 0, end_s := .val 2 }

/-- A clip whose prompt text is the literal string `N/A`, the sentinel
`verify_clips.py` uses for an absent prompt. -/
def sSentinel : Summary := { sGood with promptText := .val "N/A" }

/-- A clip with a present-but-null `promptText`, as `dump_4.py` writes
when the document has no prompt payload. -/
def sNullPrompt : Summary := { sGood with promptText := .null }

/-- A clip with the sentinel prompt text and a negative duration. -/
def sSentinelNeg : Summary := { sSentinel with end_s := .val (-1) }

/-- A clip whose `valid` field is `null`. -/
def sNullValid : Summary := { sGood with promptText := .val "x", valid := .null }

/-- A session batch with clip indices 0, 1, 3, 4. -/
def batchGaps : List Summary :=
  [{ sGood with clipIndex := .val 0 },
   { sGood with clipIndex := .val 1 },
   { sGood with clipIndex := .val 3 },
   { sGood with clipIndex := .val 4 }]

/-- A raw document payload that passes every skip check; bounds resolve
from the button-down and restart timestamps. -/
def dGood : ClipData :=
  { clipId := some "greet-s001-002",
    filename := some "alice-phone-s001-video.mp4",
    promptData := some { prompt := some "wave" },
    valid := some true,
    videoStart := some 10,
    startButtonDownTimestamp := some 12,
    startButtonUpTimestamp := some 11,
    restartButtonDownTimestamp := some 15,
    swipeForwardTimestamp := some 14,
    swipeBackTimestamp := none }

/-- Payload with no timestamps at all, so that no bounds arise. -/
def dNoTimes : ClipData :=
  { dGood with
    videoStart := none
    startButtonDownTimestamp := none
    startButtonUpTimestamp := none
    restartButtonDownTimestamp := none
    swipeForwardTimestamp := none }

/-- A document whose clip id has a fourth digit after the 3-digit clip
index, so it does not match the whole-string grammar. -/
def docTrailingJunk : RawDoc :=
  { id := "clipData-1", data := { dNoTimes with clipId := some "greet-s001-0021" } }

/-- A document with no prompt payload at all and no timestamps. -/
def docNoPrompt : RawDoc :=
  { id := "clipData-2", data := { dNoTimes with promptData := none } }

/-- A document whose clip id says session 2 but whose filename says
session 1. -/
def docMismatch : RawDoc :=
  { id := "clipData-3",
    data := { dGood with clipId := some "greet-s002-002" } }

/-- A clip that is valid but has a prompt and no end bound. -/
def sAbsPrompt : Summary := { sGood with promptText := .absent }

/-- A clip with a negative computed duration. -/
def sNegDur : Summary := { sGood with end_s := .val (-1) }

/-- An invalid clip of the end-to-end batch. -/
def sInvalidClip : Summary :=
  { sGood with clipIndex := .val 1, promptText := .val "point", valid := .val false }

/-- A valid clip of the end-to-end batch that is missing `end_s`. -/
def sNoEnd : Summary :=
  { sGood with clipIndex := .val 2, promptText := .val "nod", end_s := .absent }

/-- The end-to-end batch of spec section 8 as a list. -/
def batchEndToEnd : List Summary := [sGood, sInvalidClip, sNoEnd]


/-!  Theorems.  -/

/-- Truthiness of the `valid` field, as a proposition. -/
theorem jTruthyBool_eq_true (v : JVal Bool) : jTruthyBool v = true ↔ v = JVal.val true := by
  cases v <;> simp [jTruthyBool]

/-- Falsiness of the `valid` field, as a proposition. -/
theorem jTruthyBool_eq_false (v : JVal Bool) : jTruthyBool v = false ↔ v ≠ JVal.val true := by
  cases v <;> simp [jTruthyBool]

/-- Claim C1, counterexample.  The claim asserts that every record with
`valid == true`, `promptText` present and both bounds present gets the
tier its duration selects — here duration 2 selects `high_confidence` —
but a record whose actual prompt text is the sentinel string `N/A` is
classified `incomplete` by `verify_clip_quality` instead, because the
code cannot distinguish it from a missing prompt. -/
theorem claim_c1_counterexample :
    sSentinel.valid = JVal.val true ∧ sSentinel.promptText = JVal.val "N/A" ∧
    sSentinel.start_s = JVal.val 0 ∧ sSentinel.end_s = JVal.val 2 ∧
    (if (2 : ℚ) - 0 < 1/2 then Bucket.low_confidence
     else if (2 : ℚ) - 0 < 1 then Bucket.medium_confidence
     else if (2 : ℚ) - 0 ≤ 20 then Bucket.high_confidence
     else Bucket.medium_confidence) = Bucket.high_confidence ∧
    classifyClip sSentinel = Bucket.incomplete := by
  refine ⟨rfl, rfl, rfl, rfl, by norm_num, ?_⟩
  norm_num [classifyClip, sSentinel, sGood, jTruthyBool, JVal.toOption]

/-- Claim C1 (amended: the prompt value must also differ from the
missing-prompt sentinel string `N/A`).  For every record with
`valid == true`, `promptText` present with a non-sentinel value and both
bounds present, `verify_clip_quality` assigns exactly the tier of the
claimed duration table: `d < 0.5` low, `0.5 ≤ d < 1` medium,
`1 ≤ d ≤ 20` high, `d > 20` medium.  Moreover `valid == false` always
lands in `invalid` (checked first), and a `valid == true` record with a
missing bound lands in `incomplete`. -/
theorem claim_c1_amended :
    (∀ (s : Summary) (p : String) (a b : ℚ),
      s.valid = JVal.val true → s.promptText = JVal.val p → p ≠ "N/A" →
      s.start_s = JVal.val a → s.end_s = JVal.val b →
      classifyClip s =
        (if b - a < 1/2 then Bucket.low_confidence
         else if b - a < 1 then Bucket.medium_confidence
         else if b - a ≤ 20 then Bucket.high_confidence
         else Bucket.medium_confidence))
    ∧ (∀ s : Summary, s.valid = JVal.val false → classifyClip s = Bucket.invalid)
    ∧ (∀ s : Summary, s.valid = JVal.val true →
        s.start_s.toOption = none ∨ s.end_s.toOption = none →
        classifyClip s = Bucket.incomplete) := by
  refine ⟨?_, ?_, ?_⟩
  · intro s p a b hv hp hpn ha hb
    simp only [classifyClip, hv, hp, ha, hb, jTruthyBool, JVal.toOption]
    simp only [Bool.true_eq_false, if_false]
    rw [if_neg (by simp [hpn])]
    split_ifs <;> first | rfl | linarith
  · intro s hv
    simp [classifyClip, hv, jTruthyBool]
  · intro s hv h
    rcases h with h | h <;>
      simp [classifyClip, hv, jTruthyBool, h]

/-- Claim C1, witness: the 2-second clip `sGood` gets the tier of its
duration, namely `high_confidence`. -/
theorem claim_c1_witness :
    classifyClip sGood =
      (if (2 : ℚ) - 0 < 1/2 then Bucket.low_confidence
       else if (2 : ℚ) - 0 < 1 then Bucket.medium_confidence
       else if (2 : ℚ) - 0 ≤ 20 then Bucket.high_confidence
       else Bucket.medium_confidence) :=
  claim_c1_amended.1 sGood "wave" 0 2 rfl rfl (by decide) rfl rfl

/-- Claim C3, counterexample.  The claim says a `valid == true` record
whose `promptText` is absent *or null* is classified `incomplete` /
`missing_data` and never reaches the valid bucket or a tier.  A record
with a null `promptText` and both bounds present refutes it for both
classifiers: `verify_clip_quality` puts it in `high_confidence`
(Python `None == 'N/A'` is false) and `analyze_clips` puts it in the
valid bucket (`'promptText' in summary` holds for a null value). -/
theorem claim_c3_counterexample :
    sNullPrompt.valid = JVal.val true ∧ sNullPrompt.promptText = JVal.null ∧
    classifyClip sNullPrompt = Bucket.high_confidence ∧
    classifyCheck sNullPrompt = CheckBucket.valid := by
  refine ⟨rfl, rfl, ?_, by decide⟩
  norm_num [classifyClip, sNullPrompt, sGood, jTruthyBool, JVal.toOption]
  rintro (h | h | h) <;> simp_all

/-- Claim C3 (amended: "missing" must be read as an absent key, not a
null value).  For every record with `valid == true`, if `promptText` is
absent or either bound is absent, then `verify_clip_quality` classifies
the record `incomplete` and `analyze_clips` classifies it
`missing_data`; in particular it lands in no valid/invalid bucket and in
no confidence tier. -/
theorem claim_c3_amended :
    ∀ s : Summary, s.valid = JVal.val true →
      s.promptText = JVal.absent ∨ s.start_s = JVal.absent ∨ s.end_s = JVal.absent →
      classifyClip s = Bucket.incomplete ∧ classifyCheck s = CheckBucket.missing_data := by
  intro s hv h
  rcases h with h | h | h <;>
    exact ⟨by simp [classifyClip, hv, h, jTruthyBool, JVal.toOption],
           by simp [classifyCheck, h, jPresent]⟩

/-- Claim C3, witness: a valid record with an absent prompt is
`incomplete` for `verify_clip_quality` and `missing_data` for
`analyze_clips`. -/
theorem claim_c3_witness :
    classifyClip sAbsPrompt = Bucket.incomplete ∧
    classifyCheck sAbsPrompt = CheckBucket.missing_data :=
  claim_c3_amended sAbsPrompt rfl (Or.inl rfl)

/-- Claim C9, counterexample.  The claim asserts every `valid == true`
record with a present prompt, both bounds present and a negative
duration is classified `low_confidence`; a record whose prompt text is
the sentinel `N/A` is classified `incomplete` instead. -/
theorem claim_c9_counterexample :
    sSentinelNeg.valid = JVal.val true ∧ sSentinelNeg.promptText = JVal.val "N/A" ∧
    sSentinelNeg.start_s = JVal.val 0 ∧ sSentinelNeg.end_s = JVal.val (-1) ∧
    classifyClip sSentinelNeg = Bucket.incomplete ∧
    Bucket.incomplete ≠ Bucket.low_confidence := by
  refine ⟨rfl, rfl, rfl, rfl, ?_, by decide⟩
  norm_num [classifyClip, sSentinelNeg, sSentinel, sGood, jTruthyBool, JVal.toOption]

/-- Claim C9 (amended: the prompt value must also differ from the
sentinel string `N/A`).  A `valid == true` record with a non-sentinel
prompt, both bounds present and `endS - startS < 0` falls into the
`duration < 0.5` branch and is classified `low_confidence` — never
`incomplete` or `invalid`. -/
theorem claim_c9_amended :
    ∀ (s : Summary) (p : String) (a b : ℚ),
      s.valid = JVal.val true → s.promptText = JVal.val p → p ≠ "N/A" →
      s.start_s = JVal.val a → s.end_s = JVal.val b → b - a < 0 →
      classifyClip s = Bucket.low_confidence := by
  intro s p a b hv hp hpn ha hb hneg
  simp only [classifyClip, hv, hp, ha, hb, jTruthyBool, JVal.toOption]
  simp only [Bool.true_eq_false, if_false]
  rw [if_neg (by simp [hpn])]
  rw [if_pos (by linarith)]

/-- Claim C9, witness: duration `-1 - 0 < 0` yields `low_confidence`. -/
theorem claim_c9_witness : classifyClip sNegDur = Bucket.low_confidence :=
  claim_c9_amended sNegDur "wave" 0 (-1) rfl rfl (by decide) rfl rfl (by norm_num)

/-- Claim C10.  A record whose `valid` field is absent or null is treated
by both classifiers exactly as `valid == false`: the classification is
unchanged by replacing the field with `false`; `verify_clip_quality`
puts the record in `invalid` unconditionally (so it never reaches a
confidence tier); and with prompt and both bounds present
`analyze_clips` also puts it in `invalid`. -/
theorem claim_c10 :
    ∀ s : Summary, s.valid = JVal.absent ∨ s.valid = JVal.null →
      classifyClip s = classifyClip (setValidFalse s)
      ∧ classifyCheck s = classifyCheck (setValidFalse s)
      ∧ classifyClip s = Bucket.invalid
      ∧ (∀ (p : String) (a b : ℚ), s.promptText = JVal.val p →
          s.start_s = JVal.val a → s.end_s = JVal.val b →
          classifyCheck s = CheckBucket.invalid) := by
  intro s h
  have hv : jTruthyBool s.valid = false := by
    rcases h with h | h <;> simp [h, jTruthyBool]
  have h2 : jTruthyBool (JVal.val false) = false := rfl
  refine ⟨?_, ?_, ?_, ?_⟩
  · simp [classifyClip, setValidFalse, hv, h2]
  · simp [classifyCheck, setValidFalse, hv, h2]
  · simp [classifyClip, hv]
  · intro p a b hp ha hb
    simp [classifyCheck, hp, ha, hb, jPresent, hv]

/-- Claim C10, witness: the null-`valid` record with prompt and bounds
present is `invalid` for both classifiers. -/
theorem claim_c10_witness :
    classifyClip sNullValid = Bucket.invalid ∧
    classifyCheck sNullValid = CheckBucket.invalid :=
  ⟨(claim_c10 sNullValid (Or.inr rfl)).2.2.1,
   (claim_c10 sNullValid (Or.inr rfl)).2.2.2 "x" 0 2 rfl rfl rfl⟩

/-- Claim C2.  The Bounds Calculator `get_clip_bounds_in_video` is a pure
function of the event-timestamp fields with the claimed fallback orders:
(1) with both start candidates present, the start uses the button-down
timestamp; (2) an absent `videoStart`, (3) an absent start chain, or
(4) an absent end chain give `(null, null)`; (5) in general the bounds
are the first present start/end candidates relative to `videoStart`; and
(6) the two bounds are always both present or both absent. -/
theorem claim_c2_bounds :
    (∀ (d : ClipData) (v t1 t2 e : ℚ), d.videoStart = some v →
      d.startButtonDownTimestamp = some t1 → d.startButtonUpTimestamp = some t2 →
      d.restartButtonDownTimestamp = some e →
      get_clip_bounds_in_video d = (some (t1 - v), some (e - v)))
    ∧ (∀ d : ClipData, d.videoStart = none → get_clip_bounds_in_video d = (none, none))
    ∧ (∀ d : ClipData, d.startButtonDownTimestamp = none →
        d.startButtonUpTimestamp = none → get_clip_bounds_in_video d = (none, none))
    ∧ (∀ d : ClipData, d.restartButtonDownTimestamp = none →
        d.swipeForwardTimestamp = none → d.swipeBackTimestamp = none →
        get_clip_bounds_in_video d = (none, none))
    ∧ (∀ (d : ClipData) (v s e : ℚ), d.videoStart = some v →
        d.startButtonDownTimestamp.or d.startButtonUpTimestamp = some s →
        d.restartButtonDownTimestamp.or (d.swipeForwardTimestamp.or d.swipeBackTimestamp)
          = some e →
        get_clip_bounds_in_video d = (some (s - v), some (e - v)))
    ∧ (∀ d : ClipData,
        (get_clip_bounds_in_video d).1 = none ↔ (get_clip_bounds_in_video d).2 = none) := by
  refine ⟨?_, ?_, ?_, ?_, ?_, ?_⟩
  · intro d v t1 t2 e hv h1 h2 h3
    simp [get_clip_bounds_in_video, hv, h1, h2, h3]
  · intro d hv
    simp [get_clip_bounds_in_video, hv]
  · intro d h1 h2
    cases hv : d.videoStart <;> simp [get_clip_bounds_in_video, hv, h1, h2]
  · intro d h1 h2 h3
    cases hv : d.videoStart <;>
      cases hd : d.startButtonDownTimestamp <;>
      cases hu : d.startButtonUpTimestamp <;>
      simp [get_clip_bounds_in_video, hv, hd, hu, h1, h2, h3]
  · intro d v s e hv hs he
    cases hd : d.startButtonDownTimestamp <;>
      cases hu : d.startButtonUpTimestamp <;>
      cases hr : d.restartButtonDownTimestamp <;>
      cases hf : d.swipeForwardTimestamp <;>
      cases hb : d.swipeBackTimestamp <;>
      rw [hd, hu] at hs <;> rw [hr, hf, hb] at he <;>
      simp [Option.or] at hs he <;>
      simp [get_clip_bounds_in_video, hv, hd, hu, hr, hf, hb, hs, he]
  · intro d
    cases hv : d.videoStart <;>
      cases hd : d.startButtonDownTimestamp <;>
      cases hu : d.startButtonUpTimestamp <;>
      cases hr : d.restartButtonDownTimestamp <;>
      cases hf : d.swipeForwardTimestamp <;>
      cases hb : d.swipeBackTimestamp <;>
      simp [get_clip_bounds_in_video, hv, hd, hu, hr, hf, hb]

/-- Claim C2, witness: `dGood` has both start candidates (down at 12, up
at 11) and a restart at 15 with `videoStart` 10; the bounds come from the
button-down and restart timestamps. -/
theorem claim_c2_witness :
    get_clip_bounds_in_video dGood = (some 2, some 5) := by
  have h := claim_c2_bounds.1 dGood 10 12 11 15 rfl rfl rfl rfl
  rw [h]
  norm_num

/-- `foldl min` over a list is bounded by its initial accumulator. -/
theorem foldl_min_le_init (xs : List Int) (a : Int) : xs.foldl min a ≤ a := by
  induction xs generalizing a with
  | nil => simp
  | cons x t ih =>
    simpa using le_trans (ih (min a x)) (min_le_left a x)

/-- `foldl min` over a list is bounded by each member. -/
theorem foldl_min_le_mem (xs : List Int) : ∀ a x : Int, x ∈ xs → xs.foldl min a ≤ x := by
  induction xs with
  | nil => intro a x hx; cases hx
  | cons y t ih =>
    intro a x hx
    rcases List.mem_cons.mp hx with h | h
    · subst h
      simpa using le_trans (foldl_min_le_init t (min a x)) (min_le_right a x)
    · simpa using ih (min a y) x h

/-- `foldl min` evaluates to the accumulator or to a member. -/
theorem foldl_min_mem (xs : List Int) (a : Int) :
    xs.foldl min a = a ∨ xs.foldl min a ∈ xs := by
  induction xs generalizing a with
  | nil => left; rfl
  | cons y t ih =>
    simp only [List.foldl_cons]
    rcases ih (min a y) with h | h
    · rcases min_choice a y with h2 | h2
      · left; rw [h, h2]
      · right; rw [h, h2]; exact List.mem_cons_self y t
    · right; exact List.mem_cons_of_mem y h

/-- `foldl max` over a list is bounded below by its initial accumulator. -/
theorem foldl_max_ge_init (xs : List Int) (a : Int) : a ≤ xs.foldl max a := by
  induction xs generalizing a with
  | nil => simp
  | cons x t ih =>
    simpa using le_trans (le_max_left a x) (ih (max a x))

/-- `foldl max` over a list is bounded below by each member. -/
theorem foldl_max_ge_mem (xs : List Int) : ∀ a x : Int, x ∈ xs → x ≤ xs.foldl max a := by
  induction xs with
  | nil => intro a x hx; cases hx
  | cons y t ih =>
    intro a x hx
    rcases List.mem_cons.mp hx with h | h
    · subst h
      simpa using le_trans (le_max_right a x) (foldl_max_ge_init t (max a x))
    · simpa using ih (max a y) x h

/-- `foldl max` evaluates to the accumulator or to a member. -/
theorem foldl_max_mem (xs : List Int) (a : Int) :
    xs.foldl max a = a ∨ xs.foldl max a ∈ xs := by
  induction xs generalizing a with
  | nil => left; rfl
  | cons y t ih =>
    simp only [List.foldl_cons]
    rcases ih (max a y) with h | h
    · rcases max_choice a y with h2 | h2
      · left; rw [h, h2]
      · right; rw [h, h2]; exact List.mem_cons_self y t
    · right; exact List.mem_cons_of_mem y h

/-- `listMin l = some m` gives the usual minimum specification. -/
theorem listMin_spec (l : List Int) (m : Int) (h : listMin l = some m) :
    m ∈ l ∧ ∀ x ∈ l, m ≤ x := by
  cases l with
  | nil => cases h
  | cons x xs =>
    simp only [listMin, Option.some.injEq] at h
    subst h
    constructor
    · rcases foldl_min_mem xs x with h | h
      · rw [h]; exact List.mem_cons_self x xs
      · exact List.mem_cons_of_mem x h
    · intro y hy
      rcases List.mem_cons.mp hy with h | h
      · subst h; exact foldl_min_le_init xs y
      · exact foldl_min_le_mem xs x y h

/-- `listMax l = some m` gives the usual maximum specification. -/
theorem listMax_spec (l : List Int) (m : Int) (h : listMax l = some m) :
    m ∈ l ∧ ∀ x ∈ l, x ≤ m := by
  cases l with
  | nil => cases h
  | cons x xs =>
    simp only [listMax, Option.some.injEq] at h
    subst h
    constructor
    · rcases foldl_max_mem xs x with h | h
      · rw [h]; exact List.mem_cons_self x xs
      · exact List.mem_cons_of_mem x h
    · intro y hy
      rcases List.mem_cons.mp hy with h | h
      · subst h; exact foldl_max_ge_init xs y
      · exact foldl_max_ge_mem xs x y h

/-- Membership in `intRange` is the inclusive interval condition. -/
theorem mem_intRange (lo hi i : Int) : i ∈ intRange lo hi ↔ lo ≤ i ∧ i ≤ hi := by
  simp only [intRange, List.mem_map, List.mem_range]
  constructor
  · rintro ⟨k, hk, rfl⟩
    omega
  · rintro ⟨h1, h2⟩
    exact ⟨(i - lo).toNat, by omega, by omega⟩

/-- `intRange` is strictly increasing. -/
theorem intRange_pairwise (lo hi : Int) : (intRange lo hi).Pairwise (· < ·) := by
  unfold intRange
  refine List.Pairwise.map _ ?_ (List.pairwise_lt_range _)
  intro a b hab
  change a < b at hab
  omega

/-- Claim C5.  For each session group (records of one `sessionIndex` with
non-null indices), `analyze_session_gaps` reports exactly the integers of
the inclusive range [min observed clipIndex, max observed clipIndex] that
are absent from the observed set (part 1), in ascending order (part 2);
a group with zero or one clip yields no gaps (part 3); and the group with
indices {0,1,3,4} yields exactly {2} while a single-clip group yields
nothing (part 4). -/
theorem claim_c5 :
    (∀ (clips : List Summary) (sess lo hi : Int),
      listMin (observedIndices clips sess) = some lo →
      listMax (observedIndices clips sess) = some hi →
      ∀ i : Int, i ∈ gapsForSession clips sess ↔
        lo ≤ i ∧ i ≤ hi ∧ i ∉ observedIndices clips sess)
    ∧ (∀ (clips : List Summary) (sess : Int),
        (gapsForSession clips sess).Pairwise (· < ·))
    ∧ (∀ (clips : List Summary) (sess : Int),
        (observedIndices clips sess).length ≤ 1 → gapsForSession clips sess = [])
    ∧ gapsForSession batchGaps 0 = [2]
    ∧ gapsForSession [sGood] 0 = [] := by
  refine ⟨?_, ?_, ?_, by decide, by decide⟩
  · intro clips sess lo hi hmin hmax i
    simp [gapsForSession, sessionGaps, hmin, hmax, List.mem_filter, mem_intRange, and_assoc]
  · intro clips sess
    unfold gapsForSession sessionGaps
    cases hmin : listMin (observedIndices clips sess) with
    | none => exact List.Pairwise.nil
    | some lo =>
      cases hmax : listMax (observedIndices clips sess) with
      | none => exact List.Pairwise.nil
      | some hi => exact (intRange_pairwise lo hi).filter _
  · intro clips sess h
    rcases hobs : observedIndices clips sess with _ | ⟨a, tail⟩
    · simp [gapsForSession, hobs, sessionGaps, listMin, listMax]
    · have htail : tail = [] := by
        rw [hobs] at h
        simpa using h
      subst htail
      have h1 : a + 1 - a = (1 : ℤ) := by ring
      simp [gapsForSession, hobs, sessionGaps, listMin, listMax, intRange, h1]

/-- Claim C5, witness: in the session with observed indices {0,1,3,4},
index 2 is reported because it lies inside [0, 4] and was not observed. -/
theorem claim_c5_witness :
    (2 : Int) ∈ gapsForSession batchGaps 0 ↔
      (0 : Int) ≤ 2 ∧ (2 : Int) ≤ 4 ∧ (2 : Int) ∉ observedIndices batchGaps 0 :=
  claim_c5.1 batchGaps 0 0 4 (by decide) (by decide) 2

/-- Appending one clip to the results extends exactly the list of its
bucket. -/
theorem atBucket_addClip (r : VerifyResults) (s : Summary) (b : Bucket) :
    (addClip r s).atBucket b =
      if classifyClip s = b then r.atBucket b ++ [s] else r.atBucket b := by
  cases hc : classifyClip s <;> cases b <;>
    simp [addClip, VerifyResults.atBucket, hc]

/-- The classification loop accumulates, per bucket, exactly the clips the
per-record categorization sends there, in order. -/
theorem foldl_addClip_atBucket (l : List Summary) (r : VerifyResults) (b : Bucket) :
    (l.foldl addClip r).atBucket b =
      r.atBucket b ++ l.filter (fun s => decide (classifyClip s = b)) := by
  induction l generalizing r with
  | nil => simp
  | cons s t ih =>
    by_cases h : classifyClip s = b <;>
      simp [List.foldl_cons, ih, atBucket_addClip, h, List.filter_cons]

/-- `verify_clip_quality` fills each bucket with the filter of the batch
by the per-record categorization. -/
theorem verify_atBucket (clips : List Summary) (b : Bucket) :
    (verify_clip_quality clips).atBucket b =
      clips.filter (fun s => decide (classifyClip s = b)) := by
  have h0 : emptyResults.atBucket b = [] := by cases b <;> rfl
  simp [verify_clip_quality, foldl_addClip_atBucket, h0]

/-- The good 2-second clip is `high_confidence`. -/
theorem classify_sGood : classifyClip sGood = Bucket.high_confidence := by
  norm_num [classifyClip, sGood, jTruthyBool, JVal.toOption]
  rintro (h | h | h) <;> simp_all

/-- The user-invalidated clip is `invalid`. -/
theorem classify_sInvalidClip : classifyClip sInvalidClip = Bucket.invalid := by
  norm_num [classifyClip, sInvalidClip, sGood, jTruthyBool, JVal.toOption]

/-- The clip missing `end_s` is `incomplete`. -/
theorem classify_sNoEnd : classifyClip sNoEnd = Bucket.incomplete := by
  norm_num [classifyClip, sNoEnd, sGood, jTruthyBool, JVal.toOption]

/-- Claim C6.  General part: for every record set, the aggregate score of
`calculate_overall_confidence` applied to the classification results is
`(countHigh * 1.0 + countMedium * 0.7 + countLow * 0.3) / totalRecords *
100`, where the counts are those of the per-record categorization.
Concrete part: on the 3-clip batch (valid 2-second clip, invalid clip,
valid clip missing `end_s`) the classifier yields exactly one
`high_confidence`, one `invalid`, one `incomplete` record, and the score
is `1 / 3 * 100 = 100 / 3` (printed as 33.3%). -/
theorem claim_c6 :
    (∀ clips : List Summary,
      calculate_overall_confidence (verify_clip_quality clips) clips.length =
        ((clips.filter (fun s => decide (classifyClip s = Bucket.high_confidence))).length * 1
         + (clips.filter (fun s => decide (classifyClip s = Bucket.medium_confidence))).length
            * (7/10)
         + (clips.filter (fun s => decide (classifyClip s = Bucket.low_confidence))).length
            * (3/10))
        / clips.length * 100)
    ∧ (verify_clip_quality batchEndToEnd).high_confidence.length = 1
    ∧ (verify_clip_quality batchEndToEnd).medium_confidence.length = 0
    ∧ (verify_clip_quality batchEndToEnd).low_confidence.length = 0
    ∧ (verify_clip_quality batchEndToEnd).invalid.length = 1
    ∧ (verify_clip_quality batchEndToEnd).incomplete.length = 1
    ∧ calculate_overall_confidence (verify_clip_quality batchEndToEnd) batchEndToEnd.length
        = 100 / 3 := by
  have hhigh : ∀ clips : List Summary, (verify_clip_quality clips).high_confidence =
      clips.filter (fun s => decide (classifyClip s = Bucket.high_confidence)) :=
    fun clips => verify_atBucket clips Bucket.high_confidence
  have hmed : ∀ clips : List Summary, (verify_clip_quality clips).medium_confidence =
      clips.filter (fun s => decide (classifyClip s = Bucket.medium_confidence)) :=
    fun clips => verify_atBucket clips Bucket.medium_confidence
  have hlow : ∀ clips : List Summary, (verify_clip_quality clips).low_confidence =
      clips.filter (fun s => decide (classifyClip s = Bucket.low_confidence)) :=
    fun clips => verify_atBucket clips Bucket.low_confidence
  have hinv : ∀ clips : List Summary, (verify_clip_quality clips).invalid =
      clips.filter (fun s => decide (classifyClip s = Bucket.invalid)) :=
    fun clips => verify_atBucket clips Bucket.invalid
  have hinc : ∀ clips : List Summary, (verify_clip_quality clips).incomplete =
      clips.filter (fun s => decide (classifyClip s = Bucket.incomplete)) :=
    fun clips => verify_atBucket clips Bucket.incomplete
  refine ⟨?_, ?_, ?_, ?_, ?_, ?_, ?_⟩
  · intro clips
    rw [calculate_overall_confidence, hhigh, hmed, hlow]
  · simp [hhigh, batchEndToEnd, List.filter_cons, classify_sGood, classify_sInvalidClip,
      classify_sNoEnd]
  · simp [hmed, batchEndToEnd, List.filter_cons, classify_sGood, classify_sInvalidClip,
      classify_sNoEnd]
  · simp [hlow, batchEndToEnd, List.filter_cons, classify_sGood, classify_sInvalidClip,
      classify_sNoEnd]
  · simp [hinv, batchEndToEnd, List.filter_cons, classify_sGood, classify_sInvalidClip,
      classify_sNoEnd]
  · simp [hinc, batchEndToEnd, List.filter_cons, classify_sGood, classify_sInvalidClip,
      classify_sNoEnd]
  · rw [calculate_overall_confidence, hhigh, hmed, hlow]
    simp [batchEndToEnd, List.filter_cons, classify_sGood, classify_sInvalidClip,
      classify_sNoEnd]
    norm_num

/-- The truthy prompt of a record is a specific non-empty `promptText`
value. -/
theorem promptOf_eq_some (s : Summary) (p : String) :
    promptOf s = some p ↔ s.promptText = JVal.val p ∧ p ≠ "" := by
  cases h : s.promptText with
  | absent => simp [promptOf, strTruthy, JVal.toOption, h]
  | null => simp [promptOf, strTruthy, JVal.toOption, h]
  | val q =>
    by_cases hq : q = ""
    · constructor
      · intro hps
        simp [promptOf, strTruthy, JVal.toOption, h, hq] at hps
      · rintro ⟨h1, h2⟩
        injection h1 with h3
        subst h3
        exact absurd hq h2
    · constructor
      · intro hps
        have h4 : some q = some p := by
          simpa [promptOf, strTruthy, JVal.toOption, h, hq] using hps
        injection h4 with h3
        subst h3
        exact ⟨rfl, hq⟩
      · rintro ⟨h1, h2⟩
        injection h1 with h3
        subst h3
        simp [promptOf, strTruthy, JVal.toOption, h, hq]

/-- `attempted_prompts` membership unfolded. -/
theorem isAttempted_iff (clips : List Summary) (p : String) :
    isAttempted clips p = true ↔ ∃ s ∈ clips, promptOf s = some p := by
  simp [isAttempted]

/-- `completed_prompts` membership unfolded. -/
theorem isCompleted_iff (clips : List Summary) (p : String) (hp : p ≠ "") :
    isCompleted clips p = true ↔
      ∃ s ∈ clips, s.promptText = JVal.val p ∧ s.valid = JVal.val true := by
  simp only [isCompleted, List.any_eq_true, Bool.and_eq_true, decide_eq_true_eq]
  constructor
  · rintro ⟨s, hs, hps, hv⟩
    exact ⟨s, hs, ((promptOf_eq_some s p).mp hps).1, (jTruthyBool_eq_true s.valid).mp hv⟩
  · rintro ⟨s, hs, hps, hv⟩
    exact ⟨s, hs, (promptOf_eq_some s p).mpr ⟨hps, hp⟩, (jTruthyBool_eq_true s.valid).mpr hv⟩

/-- `rejected_prompts` membership unfolded. -/
theorem isRejected_iff (clips : List Summary) (p : String) (hp : p ≠ "") :
    isRejected clips p = true ↔
      ∃ s ∈ clips, s.promptText = JVal.val p ∧ s.valid ≠ JVal.val true := by
  simp only [isRejected, List.any_eq_true, Bool.and_eq_true, decide_eq_true_eq,
    Bool.not_eq_true']
  constructor
  · rintro ⟨s, hs, hps, hv⟩
    exact ⟨s, hs, ((promptOf_eq_some s p).mp hps).1, (jTruthyBool_eq_false s.valid).mp hv⟩
  · rintro ⟨s, hs, hps, hv⟩
    exact ⟨s, hs, (promptOf_eq_some s p).mpr ⟨hps, hp⟩, (jTruthyBool_eq_false s.valid).mpr hv⟩

/-- Claim C4, counterexample.  In a batch whose only record carries
prompt `x` with a null `valid`, the code classifies `x` as
`never_accepted`; yet `x` appears on no record with `valid == false` (so
the claim's `never_accepted` condition fails) and on no record with
`valid == true` (so its other two conditions fail too): none of the
claim's three categories applies to a prompt the code does classify. -/
theorem claim_c4_counterexample :
    promptCategory [sNullValid] "x" = PromptCategory.never_accepted
    ∧ (∃ s ∈ [sNullValid], s.promptText = JVal.val "x")
    ∧ ¬ (∃ s ∈ [sNullValid], s.promptText = JVal.val "x" ∧ s.valid = JVal.val true)
    ∧ ¬ (∀ s ∈ [sNullValid], s.promptText = JVal.val "x" → s.valid = JVal.val false) := by
  refine ⟨by decide, ⟨sNullValid, by simp, rfl⟩, ?_, ?_⟩
  · rintro ⟨s, hs, _, hv⟩
    simp only [List.mem_singleton] at hs
    subst hs
    cases hv
  · intro h
    have := h sNullValid (by simp) rfl
    cases this

/-- Claim C4 (amended: a prompt is tracked only when non-empty, and
"invalid" appearances are those whose `valid` is anything but `true` —
`false`, null or absent, all falsy).  Every distinct non-empty prompt
appearing on at least one record is classified `completed_first_try` iff
it appears with `valid == true` and never with a falsy `valid`;
`completed_with_retries` iff it appears both ways; `never_accepted` iff
it appears with a falsy `valid` and never with `valid == true`; and any
reference prompt appearing on no record at all is reported
`completely_skipped`. -/
theorem claim_c4_amended :
    (∀ (clips : List Summary) (p : String), p ≠ "" →
      (∃ s ∈ clips, s.promptText = JVal.val p) →
      ((promptCategory clips p = PromptCategory.completed_first_try ↔
          ((∃ s ∈ clips, s.promptText = JVal.val p ∧ s.valid = JVal.val true)
           ∧ ¬ ∃ s ∈ clips, s.promptText = JVal.val p ∧ s.valid ≠ JVal.val true))
       ∧ (promptCategory clips p = PromptCategory.completed_with_retries ↔
          ((∃ s ∈ clips, s.promptText = JVal.val p ∧ s.valid = JVal.val true)
           ∧ ∃ s ∈ clips, s.promptText = JVal.val p ∧ s.valid ≠ JVal.val true))
       ∧ (promptCategory clips p = PromptCategory.never_accepted ↔
          ((∃ s ∈ clips, s.promptText = JVal.val p ∧ s.valid ≠ JVal.val true)
           ∧ ¬ ∃ s ∈ clips, s.promptText = JVal.val p ∧ s.valid = JVal.val true))))
    ∧ (∀ (expected : List String) (clips : List Summary) (p : String),
        p ∈ expected → (∀ s ∈ clips, s.promptText ≠ JVal.val p) →
        p ∈ completelySkipped expected clips) := by
  constructor
  · intro clips p hp happ
    have hc := isCompleted_iff clips p hp
    have hr := isRejected_iff clips p hp
    have htotal : isCompleted clips p = true ∨ isRejected clips p = true := by
      obtain ⟨s, hs, hps⟩ := happ
      cases hv : jTruthyBool s.valid
      · exact Or.inr (hr.mpr ⟨s, hs, hps, (jTruthyBool_eq_false s.valid).mp hv⟩)
      · exact Or.inl (hc.mpr ⟨s, hs, hps, (jTruthyBool_eq_true s.valid).mp hv⟩)
    cases hcb : isCompleted clips p <;> cases hrb : isRejected clips p <;>
      rw [hcb] at hc htotal <;> rw [hrb] at hr htotal
    · exact absurd htotal (by simp)
    · refine ⟨?_, ?_, ?_⟩ <;>
        simp [promptCategory, hcb, hrb, ← hc, ← hr]
    · refine ⟨?_, ?_, ?_⟩ <;>
        simp [promptCategory, hcb, hrb, ← hc, ← hr]
    · refine ⟨?_, ?_, ?_⟩ <;>
        simp [promptCategory, hcb, hrb, ← hc, ← hr]
  · intro expected clips p hin hnone
    simp only [completelySkipped, List.mem_filter, Bool.not_eq_true']
    refine ⟨hin, ?_⟩
    rw [← Bool.not_eq_true, isAttempted_iff]
    rintro ⟨s, hs, hps⟩
    exact hnone s hs ((promptOf_eq_some s p).mp hps).1

/-- Claim C4, witness: in a batch whose only record carries prompt `wave`
with `valid == true`, the prompt is classified `completed_first_try`. -/
theorem claim_c4_witness :
    promptCategory [sGood] "wave" = PromptCategory.completed_first_try := by
  have h := (claim_c4_amended.1 [sGood] "wave" (by decide) ⟨sGood, by simp, rfl⟩).1
  refine h.mpr ⟨⟨sGood, by simp, rfl, rfl⟩, ?_⟩
  rintro ⟨s, hs, _, hv⟩
  simp only [List.mem_singleton] at hs
  subst hs
  exact hv rfl

/-- Splitting a list at a known failing element determines `takeWhile` and
`dropWhile`. -/
theorem takeWhile_dropWhile_split (p : Char → Bool) (l1 l2 : List Char) (x : Char)
    (h1 : ∀ a ∈ l1, p a = true) (hx : p x = false) :
    (l1 ++ x :: l2).takeWhile p = l1 ∧ (l1 ++ x :: l2).dropWhile p = x :: l2 := by
  induction l1 with
  | nil => simp [List.takeWhile_cons, List.dropWhile_cons, hx]
  | cons y t ih =>
    have hy : p y = true := h1 y (List.mem_cons_self y t)
    have iht := ih (fun a ha => h1 a (List.mem_cons_of_mem y ha))
    simp [List.takeWhile_cons, List.dropWhile_cons, hy, iht.1, iht.2]

/-- Inversion of a successful `sDigitsPattern` match. -/
theorem sDigitsPattern_some (l : List Char) (x y : Int)
    (h : sDigitsPattern l = some (x, y)) :
    ∃ (a b c d e f : Char) (rest : List Char),
      l = '-' :: 's' :: a :: b :: c :: '-' :: d :: e :: f :: rest
      ∧ isDig a = true ∧ isDig b = true ∧ isDig c = true
      ∧ isDig d = true ∧ isDig e = true ∧ isDig f = true
      ∧ x = threeDig a b c ∧ y = threeDig d e f := by
  rcases l with _ | ⟨c1, l⟩; · cases h
  rcases l with _ | ⟨c2, l⟩; · cases h
  rcases l with _ | ⟨a, l⟩; · cases h
  rcases l with _ | ⟨b, l⟩; · cases h
  rcases l with _ | ⟨c, l⟩; · cases h
  rcases l with _ | ⟨c6, l⟩; · cases h
  rcases l with _ | ⟨d, l⟩; · cases h
  rcases l with _ | ⟨e, l⟩; · cases h
  rcases l with _ | ⟨f, rest⟩; · cases h
  simp only [sDigitsPattern] at h
  split_ifs at h with hcond
  · simp only [Bool.and_eq_true, decide_eq_true_eq] at hcond
    obtain ⟨⟨⟨⟨⟨⟨⟨⟨h1, h2⟩, h6⟩, ha⟩, hb⟩, hc⟩, hd⟩, he⟩, hf⟩ := hcond
    injection h with h'
    injection h' with hx hy
    exact ⟨a, b, c, d, e, f, rest, by rw [h1, h2, h6], ha, hb, hc, hd, he, hf,
      hx.symm, hy.symm⟩

/-- Claim C7, counterexample.  The claim says any clip id not matching
the whole-string grammar `<prefix>-s<3-digit>-<3-digit>` is rejected;
but `re.match` in `get_data` only anchors at the start, so the clip id
`greet-s001-0021` (four digits after the second dash) is not rejected —
the document still yields a Clip Record (with clip index 002). -/
theorem claim_c7_counterexample :
    clipIdExactGrammar "greet-s001-0021" = false
    ∧ docTrailingJunk.data.clipId = some "greet-s001-0021"
    ∧ processClipDoc docTrailingJunk ≠ none := by
  refine ⟨by decide, rfl, by decide⟩

/-- Claim C7 (amended: the clip-id grammar is only anchored at the start,
so trailing characters after the two 3-digit groups are ignored rather
than rejected).  Parts: (1) a document whose clip id does not parse is
skipped; (2) a document whose clip-id session and filename session
disagree is skipped; (3)-(4) the parser accepts exactly the strings that
begin with `<dash-free prefix>-s<3 digits>-<3 digits>`, returning those
digit groups; (5) a skipped document leaves the processing of the rest
of the batch unchanged (no exception escapes the per-record boundary). -/
theorem claim_c7_amended :
    (∀ (doc : RawDoc) (cid : String), strTruthy doc.data.clipId = some cid →
      parseClipId cid = none → processClipDoc doc = none)
    ∧ (∀ (doc : RawDoc) (cid fn : String) (si ci fsi : Int) (tut : Bool) (uid : String),
        strTruthy doc.data.clipId = some cid → parseClipId cid = some (si, ci) →
        strTruthy doc.data.filename = some fn → parseFilename fn = some (tut, uid, fsi) →
        si ≠ fsi → processClipDoc doc = none)
    ∧ (∀ (s : String) (pre rest : List Char) (a b c d e f : Char),
        s.data = pre ++ '-' :: 's' :: a :: b :: c :: '-' :: d :: e :: f :: rest →
        pre ≠ [] → (∀ ch ∈ pre, ch ≠ '-') →
        isDig a = true → isDig b = true → isDig c = true →
        isDig d = true → isDig e = true → isDig f = true →
        parseClipId s = some (threeDig a b c, threeDig d e f))
    ∧ (∀ (s : String) (si ci : Int), parseClipId s = some (si, ci) →
        ∃ (pre rest : List Char) (a b c d e f : Char),
          s.data = pre ++ '-' :: 's' :: a :: b :: c :: '-' :: d :: e :: f :: rest
          ∧ pre ≠ [] ∧ (∀ ch ∈ pre, ch ≠ '-')
          ∧ isDig a = true ∧ isDig b = true ∧ isDig c = true
          ∧ isDig d = true ∧ isDig e = true ∧ isDig f = true
          ∧ si = threeDig a b c ∧ ci = threeDig d e f)
    ∧ (∀ (docs1 docs2 : List RawDoc) (doc : RawDoc), processClipDoc doc = none →
        getDataClips (docs1 ++ doc :: docs2) = getDataClips docs1 ++ getDataClips docs2) := by
  refine ⟨?_, ?_, ?_, ?_, ?_⟩
  · intro doc cid h1 h2
    simp [processClipDoc, h1, h2]
  · intro doc cid fn si ci fsi tut uid h1 h2 h3 h4 h5
    simp [processClipDoc, h1, h2, h3, h4, h5]
  · intro s pre rest a b c d e f hdata hne hdash ha hb hc hd he hf
    have hx : (fun ch => decide (ch ≠ '-')) '-' = false := by decide
    have h1 : ∀ ch ∈ pre, (fun ch => decide (ch ≠ '-')) ch = true := by
      intro ch hch
      simpa using hdash ch hch
    have hsplit := takeWhile_dropWhile_split _ pre
      ('s' :: a :: b :: c :: '-' :: d :: e :: f :: rest) '-' h1 hx
    simp only [parseClipId]
    rw [hdata, hsplit.1, hsplit.2]
    rw [if_neg (by simpa using hne)]
    simp [sDigitsPattern, ha, hb, hc, hd, he, hf]
  · intro s si ci h
    simp only [parseClipId] at h
    split_ifs at h with hpre
    · obtain ⟨a, b, c, d, e, f, rest, hdw, ha, hb, hc, hd, he, hf, hx, hy⟩ :=
        sDigitsPattern_some _ _ _ h
      refine ⟨s.data.takeWhile (fun ch => decide (ch ≠ '-')), rest, a, b, c, d, e, f,
        ?_, ?_, ?_, ha, hb, hc, hd, he, hf, hx, hy⟩
      · conv_lhs => rw [← List.takeWhile_append_dropWhile
          (p := fun ch => decide (ch ≠ '-')) (l := s.data)]
        rw [hdw]
      · simpa using hpre
      · intro ch hch
        simpa using List.mem_takeWhile_imp hch
  · intro docs1 docs2 doc h
    simp [getDataClips, List.filterMap_append, List.filterMap_cons, h]

/-- Claim C7, witness: the document whose clip id names session 2 while
its filename names session 1 is skipped. -/
theorem claim_c7_witness : processClipDoc docMismatch = none :=
  claim_c7_amended.2.1 docMismatch "greet-s002-002" "alice-phone-s001-video.mp4"
    2 2 1 false "alice" (by decide) (by decide) (by decide) (by decide) (by decide)

/-- Claim C8, counterexample.  The claim says a document with no
extractable prompt payload is rejected like one failing identifier
parsing; in fact `get_data` has no such rejection: a document with no
`promptData` at all still yields a Clip Record, whose `promptText` is
null. -/
theorem claim_c8_counterexample :
    docNoPrompt.data.promptData = none
    ∧ ∃ s, processClipDoc docNoPrompt = some s ∧ s.promptText = JVal.null :=
  ⟨rfl, _, rfl, rfl⟩

/-- Claim C8 (amended: a missing prompt payload does NOT reject the
record).  A document that passes the identifier checks but has no
extractable prompt (no `promptData`, or a `promptData` without a
`prompt`) still contributes a Clip Record, with a null `promptText`;
only identifier-parsing failures (among others) skip a record, e.g. an
unparsable clip id. -/
theorem claim_c8_amended :
    (∀ (doc : RawDoc) (cid fn : String) (si ci : Int) (tut : Bool) (uid : String),
      listIsStart "clipData-".data doc.id.data = true →
      doc.data.isEmptyDict = false →
      strTruthy doc.data.clipId = some cid →
      parseClipId cid = some (si, ci) →
      strTruthy doc.data.filename = some fn →
      parseFilename fn = some (tut, uid, si) →
      doc.data.promptData.bind PromptData.prompt = none →
      ∃ s, processClipDoc doc = some s ∧ s.promptText = JVal.null)
    ∧ (∀ (doc : RawDoc) (cid : String), strTruthy doc.data.clipId = some cid →
        parseClipId cid = none → processClipDoc doc = none) := by
  constructor
  · intro doc cid fn si ci tut uid h1 h2 h3 h4 h5 h6 h7
    have h9 : processClipDoc doc = some (builtSummary doc.data fn si ci tut uid) := by
      simp [processClipDoc, h1, h2, h3, h4, h5, h6]
    refine ⟨_, h9, ?_⟩
    rcases h8 : doc.data.promptData with _ | pd
    · simp [builtSummary, h8]
    · rcases h10 : pd.prompt with _ | p
      · simp [builtSummary, h8, h10]
      · simp [h8, h10] at h7
  · intro doc cid h1 h2
    simp [processClipDoc, h1, h2]

/-- Claim C8, witness: the concrete no-prompt document contributes a
record with null `promptText`. -/
theorem claim_c8_witness :
    ∃ s, processClipDoc docNoPrompt = some s ∧ s.promptText = JVal.null :=
  claim_c8_amended.1 docNoPrompt "greet-s001-002" "alice-phone-s001-video.mp4"
    1 2 false "alice" (by decide) (by decide) (by decide) (by decide) (by decide)
    (by decide) rfl
